import Mathlib

/-
Verification of the commensurate q-point reconciliation and force-constant
assembly pipeline of Phono3py-Power-Tools (Phonopy-Importer).

The definitions below are a shallow embedding of
`src/Phonopy-Importer/PhonopyImporter/Common.py` and
`src/Phonopy-Importer/PhonopyImporter/CASTEP.py`.

Modelling conventions:
  * Python floats are modelled as rationals (ℚ); the claims under study are
    about comparisons, index bookkeeping and exact data movement, not about
    floating-point rounding.
  * numpy arrays are modelled as nested lists together with `npShape2` /
    `npShape4`, which mirror `np.shape` on rectangular nested lists.
  * `warnings.warn` is modelled by accumulating `Warning` values; raising an
    exception (an `assert` failure or an explicit `raise`) is modelled by the
    `BuildOutcome.fatal` constructor, which also records the warnings emitted
    before the failure.
  * The external Transform Engine (the `phonopy` package) is out of the
    repository: its commensurate-point list is a parameter of
    `BuildForceConstants`, its two unit-conversion constants (`VaspToTHz`,
    `VaspToCm`) are parameters, and the data handed to its
    dynamical-matrix/force-constant routine is returned in the
    `BuildOutcome.ok` payload (`EngineInput`).  The engine call at
    `dynmat_to_fc.set_dynamical_matrices` / `.run()` and the file write at
    `write_FORCE_CONSTANTS` happen in the source exactly when the pipeline
    reaches the end of the function, i.e. exactly in the `ok` case of the
    embedding; a `fatal` outcome means the engine routine is never invoked
    and no output file is written.
-/

namespace PhonopyImporter

/-- Tolerance for comparing positions (`_SymPrec = 1.0e-5`, Common.py line 34). -/
def symPrec : ℚ := 1 / 100000

/-- A q-point: three fractional reciprocal coordinates (`qx`, `qy`, `qz`). -/
def Q3 : Type := ℚ × ℚ × ℚ

instance : DecidableEq Q3 := by unfold Q3; infer_instance

instance : Inhabited Q3 := ⟨((0 : ℚ), (0 : ℚ), (0 : ℚ))⟩

/-- Absolute value of a rational, mirroring `math.fabs`. -/
def fabs (x : ℚ) : ℚ := if x < 0 then -x else x

/-- The per-component tolerance test from Common.py line 265:
`math.fabs(qx_2 - qx_1) < _SymPrec and ... and ...` for all three components. -/
def qMatch (q1 q2 : Q3) : Prop :=
  fabs (q2.1 - q1.1) < symPrec ∧ fabs (q2.2.1 - q1.2.1) < symPrec ∧
    fabs (q2.2.2 - q1.2.2) < symPrec

instance (q1 q2 : Q3) : Decidable (qMatch q1 q2) := by
  unfold qMatch; infer_instance

/-- Warnings emitted by the pipeline (`warnings.warn(..., RuntimeWarning)`). -/
inductive PWarning where
  /-- Common.py line 69: atom positions look Cartesian rather than fractional. -/
  | unitWarning : PWarning
  /-- Common.py line 234: dynamical-matrix → force-constants transform only
  tested at the Gamma point. -/
  | gammaUntested : PWarning
  /-- Common.py line 255: `len(commensurate_points) != n_q`. -/
  | qptsCount : PWarning
deriving DecidableEq, Repr

/-- Fatal failures of the pipeline.  In the source these are `assert`
failures or explicit `raise Exception(...)`; the constructor names follow the
spec's error taxonomy (§7) and each records the data echoed in the source's
message. -/
inductive BuildError where
  /-- Any of the array-shape assertions failed (Common.py lines 51-74 and
  190-209). -/
  | shapeError : BuildError
  /-- Common.py line 221: `freq_units` is neither `'thz'` nor `'inv_cm'`;
  carries the offending unit string. -/
  | unsupportedUnit (units : String) : BuildError
  /-- Common.py line 270: no dataset q-point matched a commensurate point;
  carries the coordinates of the unmatched commensurate point, which the
  source formats into the exception message. -/
  | unmatchedQPoint (q : Q3) : BuildError
  /-- Common.py line 274: the assertion `map_index not in map_indices`
  failed. -/
  | duplicateMatch : BuildError
deriving DecidableEq

/-- Outcome of a pipeline call: either success with the accumulated warnings
and a value, or an exception with the warnings already emitted before it. -/
inductive BuildOutcome (α : Type) where
  | ok : List PWarning → α → BuildOutcome α
  | fatal : List PWarning → BuildError → BuildOutcome α
deriving DecidableEq

instance {ε α : Type} [DecidableEq ε] [DecidableEq α] : DecidableEq (Except ε α) := by
  intro a b
  cases a <;> cases b
  case ok.ok x y =>
    exact if h : x = y then .isTrue (by rw [h]) else .isFalse (by intro hc; cases hc; exact h rfl)
  case error.error x y =>
    exact if h : x = y then .isTrue (by rw [h]) else .isFalse (by intro hc; cases hc; exact h rfl)
  case error.ok x y => exact .isFalse (by intro hc; cases hc)
  case ok.error x y => exact .isFalse (by intro hc; cases hc)

/-- Linear scan of the dataset q-points (Common.py lines 264-267):
`for i, (qx_2, qy_2, qz_2) in enumerate(q_pts): if <match>: map_index = i;
break`, carrying the index of the head of the remaining list. -/
def findFirstMatchAux (cp : Q3) : List Q3 → Nat → Option Nat
  | [], _ => none
  | q :: rest, i => if qMatch cp q then some i else findFirstMatchAux cp rest (i + 1)

/-- Index of the first dataset q-point matching the commensurate point `cp`
within `symPrec`, or `none` (`map_index` of Common.py lines 262-267). -/
def findFirstMatch (cp : Q3) (q_pts : List Q3) : Option Nat :=
  findFirstMatchAux cp q_pts 0

/-- The reconciliation loop of Common.py lines 259-276: iterate over the
commensurate points in order, accumulate `map_indices`, raise on a missing
match (line 270) or on a duplicate match (the line 274 assertion). -/
def mapLoop (q_pts : List Q3) : List Q3 → List Nat → Except BuildError (List Nat)
  | [], map_indices => .ok map_indices
  | cp :: rest, map_indices =>
    match findFirstMatch cp q_pts with
    | none => .error (.unmatchedQPoint cp)
    | some map_index =>
      if map_index ∈ map_indices then .error .duplicateMatch
      else mapLoop q_pts rest (map_indices ++ [map_index])

/-- Shape of a numpy array built from a rectangular doubly nested list, as
returned by `np.shape` (`(dim_1, dim_2)`). -/
def npShape2 {α : Type} (m : List (List α)) : Nat × Nat :=
  (m.length, (m.headD []).length)

/-- Shape of a numpy array built from a rectangular four-times nested list,
as returned by `np.shape` (`(dim_1, dim_2, dim_3, dim_4)`). -/
def npShape4 {α : Type} (m : List (List (List (List α)))) : Nat × Nat × Nat × Nat :=
  (m.length, (m.headD []).length, ((m.headD []).headD []).length,
    (((m.headD []).headD []).headD []).length)

/-- The test of Common.py line 68: `(np.abs(atom_pos) > 1.0).any()`. -/
def bigPos (atom_pos : List (List ℚ)) : Bool :=
  atom_pos.any (fun row => row.any (fun x => decide (1 < fabs x)))

/-- Structure checks common to `WritePOSCAR` and `BuildForceConstants`
(Common.py lines 41-74, `_CheckStructure`).  The `assert` statements become
`fatal .shapeError`; the `warnings.warn` at line 69 contributes
`PWarning.unitWarning`, emitted between the position-shape assertion and the
mass-length assertion, exactly as in the source. -/
def checkStructure (lattice_vectors : List (List ℚ)) (atom_types : List String)
    (atom_pos : List (List ℚ)) (atom_mass : Option (List ℚ)) : BuildOutcome Unit :=
  let (dim_1, dim_2) := npShape2 lattice_vectors
  if ¬(dim_1 = dim_2 ∧ dim_2 = 3) then .fatal [] .shapeError
  else if ¬(atom_types.length > 0) then .fatal [] .shapeError
  else
    let (pdim_1, pdim_2) := npShape2 atom_pos
    if ¬(pdim_1 = atom_types.length ∧ pdim_2 = 3) then .fatal [] .shapeError
    else
      let ws := if bigPos atom_pos then [PWarning.unitWarning] else []
      match atom_mass with
      | some masses =>
        if masses.length = atom_types.length then .ok ws () else .fatal ws .shapeError
      | none => .ok ws ()

/-- The frequency-conversion-factor selection of Common.py lines 213-221.
The two conversion constants live in the external `phonopy.units` module, so
they are parameters of the embedding. -/
def freqConvFactor (vaspToTHz vaspToCm : ℚ) (freq_units : String) : Option ℚ :=
  if freq_units = "thz" then some vaspToTHz
  else if freq_units = "inv_cm" then some vaspToCm
  else none

/-- A row of a q-point array as the triple unpacked by the source
(`qx_2, qy_2, qz_2`); rows reaching this point have length 3 because the
shape assertion `dim_2 == 3` precedes the matching loop. -/
def toQ3 (row : List ℚ) : Q3 := (row.getD 0 0, row.getD 1 0, row.getD 2 0)

/-- The eigenvector reshape of Common.py lines 295-304: for `i` over atoms
and `j` over the three Cartesian components, build the row
`[eig[k][i][j] for k in range(n_b)]`; rows are accumulated atom-major,
Cartesian-minor.  `d` is the (never used on shape-correct data) default of
the list lookups. -/
def eigRows {α : Type} (n_at n_b : Nat) (d : α) (eig : List (List (List α))) :
    List (List α) :=
  (List.range n_at).flatMap (fun i =>
    (List.range 3).map (fun j =>
      (List.range n_b).map (fun k => ((eig.getD k []).getD i []).getD j d)))

/-- The frequency rearrangement of Common.py lines 282-285:
`[freq / freq_conv_factor for freq in freqs[index]]` for each mapped index. -/
def freqSets (freq_conv_factor : ℚ) (map_indices : List Nat)
    (freqs : List (List ℚ)) : List (List ℚ) :=
  map_indices.map (fun index => (freqs.getD index []).map (fun f => f / freq_conv_factor))

/-- The eigenvector rearrangement of Common.py lines 287-306: reshape
`eigs[index]` for each mapped index. -/
def eigSets {α : Type} (n_at n_b : Nat) (d : α) (map_indices : List Nat)
    (eigs : List (List (List (List α)))) : List (List (List α)) :=
  map_indices.map (fun index => eigRows n_at n_b d (eigs.getD index []))

/-- The unpacking `dim_1, dim_2, dim_3 = sc_dim` of Common.py line 231
(`sc_dim` has length 3 by the preceding shape assertion). -/
def scTriple (sc_dim : List ℤ) : ℤ × ℤ × ℤ :=
  (sc_dim.getD 0 0, sc_dim.getD 1 0, sc_dim.getD 2 0)

/-- The warning guard of Common.py line 233, the Python chained comparison
`dim_1 != dim_2 != dim_2 != 1`, which unfolds to
`dim_1 != dim_2 and dim_2 != dim_2 and dim_2 != 1`. -/
def scWarnCond (dim_1 dim_2 : ℤ) : Prop :=
  dim_1 ≠ dim_2 ∧ dim_2 ≠ dim_2 ∧ dim_2 ≠ 1

instance (d1 d2 : ℤ) : Decidable (scWarnCond d1 d2) := by
  unfold scWarnCond; infer_instance

/-- Data handed to the Transform Engine's dynamical-matrix/force-constant
routine (`dynmat_to_fc.set_dynamical_matrices(freq_sets, eig_sets)` of
Common.py line 313); the engine then runs and `write_FORCE_CONSTANTS`
writes its result. -/
structure EngineInput (α : Type) where
  freq_sets : List (List ℚ)
  eig_sets : List (List (List α))
deriving DecidableEq

/-- Common.py lines 211-319, after the input-shape assertions: select the
unit-conversion factor, emit the (unreachable, see `scWarnCond`) supercell
warning, emit the q-point-count warning, run the reconciliation loop and
rearrange the matched frequencies and eigenvectors for the engine. -/
def buildAfterChecks {α : Type} (vaspToTHz vaspToCm : ℚ) (freq_units : String)
    (commensurate_points : List Q3) (q_pts : List (List ℚ))
    (freqs : List (List ℚ)) (eigs : List (List (List (List α)))) (sc_dim : List ℤ)
    (d : α) (ws : List PWarning) (n_at n_q n_b : Nat) : BuildOutcome (EngineInput α) :=
  match freqConvFactor vaspToTHz vaspToCm freq_units with
  | none => .fatal ws (.unsupportedUnit freq_units)
  | some freq_conv_factor =>
    let (dim_1, dim_2, _) := scTriple sc_dim
    let ws := ws ++ (if scWarnCond dim_1 dim_2 then [PWarning.gammaUntested] else [])
    let ws := ws ++ (if commensurate_points.length ≠ n_q then [PWarning.qptsCount] else [])
    match mapLoop (q_pts.map toQ3) commensurate_points [] with
    | .error e => .fatal ws e
    | .ok map_indices =>
      .ok ws ⟨freqSets freq_conv_factor map_indices freqs,
              eigSets n_at n_b d map_indices eigs⟩

/-- Common.py lines 166-319, `BuildForceConstants`.  The Transform Engine's
commensurate-point list (obtained in the source from
`DynmatToForceConstants(primitive, supercell).get_commensurate_points()`) is
the `commensurate_points` parameter; the engine's unit constants are the
`vaspToTHz` / `vaspToCm` parameters; a `fatal` outcome means the function
raised before `dynmat_to_fc.set_dynamical_matrices` /
`write_FORCE_CONSTANTS`, so the engine transform never runs and no output
file is written. -/
def BuildForceConstants {α : Type} (vaspToTHz vaspToCm : ℚ)
    (commensurate_points : List Q3) (lattice_vectors : List (List ℚ))
    (atom_types : List String) (atom_pos : List (List ℚ))
    (q_pts : List (List ℚ)) (freqs : List (List ℚ))
    (eigs : List (List (List (List α)))) (sc_dim : List ℤ)
    (freq_units : String) (atom_mass : Option (List ℚ)) (d : α) :
    BuildOutcome (EngineInput α) :=
  match checkStructure lattice_vectors atom_types atom_pos atom_mass with
  | .fatal ws e => .fatal ws e
  | .ok ws _ =>
    let (qdim_1, qdim_2) := npShape2 q_pts
    if ¬(qdim_1 > 0 ∧ qdim_2 = 3) then .fatal ws .shapeError
    else
      let n_at := atom_types.length
      let n_q := qdim_1
      let n_b := 3 * n_at
      let (fdim_1, fdim_2) := npShape2 freqs
      if ¬(fdim_1 = n_q ∧ fdim_2 = n_b) then .fatal ws .shapeError
      else
        let (edim_1, edim_2, edim_3, edim_4) := npShape4 eigs
        if ¬(edim_1 = n_q ∧ edim_2 = n_b ∧ edim_3 = n_at ∧ edim_4 = 3) then
          .fatal ws .shapeError
        else if ¬(sc_dim.length = 3) then .fatal ws .shapeError
        else
          buildAfterChecks vaspToTHz vaspToCm freq_units commensurate_points
            q_pts freqs eigs sc_dim d ws n_at n_q n_b

/-- Warnings carried by an outcome. -/
def warningsOf {α : Type} : BuildOutcome α → List PWarning
  | .ok ws _ => ws
  | .fatal ws _ => ws

/-- The inverse of the eigenvector re-indexing.  Modelled from the spec:
the spec's round-trip property (§4.3, §8) speaks of "reshaping then
inverse-reshaping"; the inverse re-indexing reads entry `[b][a][c]` of the
reconstructed tensor from row `3*a + c`, column `b` of the reshaped matrix. -/
def invReshape {α : Type} (n_at n_b : Nat) (d : α) (rows : List (List α)) :
    List (List (List α)) :=
  (List.range n_b).map (fun k =>
    (List.range n_at).map (fun i =>
      (List.range 3).map (fun j => (rows.getD (3 * i + j) []).getD k d)))

/-- The warnings emitted by a structure check that passes (the line 68-69
test of Common.py). -/
def unitWs (atom_pos : List (List ℚ)) : List PWarning :=
  if bigPos atom_pos then [PWarning.unitWarning] else []

/-- The mass-length condition of Common.py lines 73-74 (trivial when no
masses are supplied). -/
def massOK (atom_types : List String) : Option (List ℚ) → Prop
  | some masses => masses.length = atom_types.length
  | none => True

instance (ts : List String) (m : Option (List ℚ)) : Decidable (massOK ts m) := by
  cases m <;> simp [massOK] <;> infer_instance

/-- Conjunction of the structure-shape assertions of `_CheckStructure`
(Common.py lines 51-74). -/
def structureOK (lattice_vectors : List (List ℚ)) (atom_types : List String)
    (atom_pos : List (List ℚ)) (atom_mass : Option (List ℚ)) : Prop :=
  (npShape2 lattice_vectors).1 = (npShape2 lattice_vectors).2 ∧
  (npShape2 lattice_vectors).2 = 3 ∧
  atom_types.length > 0 ∧
  (npShape2 atom_pos).1 = atom_types.length ∧ (npShape2 atom_pos).2 = 3 ∧
  massOK atom_types atom_mass

instance (lv : List (List ℚ)) (ts : List String) (pos : List (List ℚ))
    (m : Option (List ℚ)) : Decidable (structureOK lv ts pos m) := by
  unfold structureOK; infer_instance

/-- Conjunction of the array-shape assertions of `BuildForceConstants`
(Common.py lines 187-209). -/
def arraysOK {α : Type} (atom_types : List String) (q_pts : List (List ℚ))
    (freqs : List (List ℚ)) (eigs : List (List (List (List α))))
    (sc_dim : List ℤ) : Prop :=
  (npShape2 q_pts).1 > 0 ∧ (npShape2 q_pts).2 = 3 ∧
  (npShape2 freqs).1 = (npShape2 q_pts).1 ∧
  (npShape2 freqs).2 = 3 * atom_types.length ∧
  (npShape4 eigs).1 = (npShape2 q_pts).1 ∧
  (npShape4 eigs).2.1 = 3 * atom_types.length ∧
  (npShape4 eigs).2.2.1 = atom_types.length ∧
  (npShape4 eigs).2.2.2 = 3 ∧
  sc_dim.length = 3

instance {α : Type} (ts : List String) (q : List (List ℚ)) (f : List (List ℚ))
    (e : List (List (List (List α)))) (sc : List ℤ) :
    Decidable (arraysOK ts q f e sc) := by
  unfold arraysOK; infer_instance

/-- The shape condition enumerated by the claim under examination: lattice
not exactly 3×3, atom symbol list empty, position shape different from
N×3, supplied mass list of the wrong length, or frequency/eigenvector band
dimension different from 3N.  Modelled from the spec's words, to be compared
with the conditions the code actually checks. -/
def claimedShapeCondition {α : Type} (lattice_vectors : List (List ℚ))
    (atom_types : List String) (atom_pos : List (List ℚ))
    (atom_mass : Option (List ℚ)) (freqs : List (List ℚ))
    (eigs : List (List (List (List α)))) : Prop :=
  npShape2 lattice_vectors ≠ (3, 3) ∨
  atom_types.length = 0 ∨
  npShape2 atom_pos ≠ (atom_types.length, 3) ∨
  ¬ massOK atom_types atom_mass ∨
  (npShape2 freqs).2 ≠ 3 * atom_types.length ∨
  (npShape4 eigs).2.1 ≠ 3 * atom_types.length

instance {α : Type} (lv : List (List ℚ)) (ts : List String) (pos : List (List ℚ))
    (m : Option (List ℚ)) (f : List (List ℚ)) (e : List (List (List (List α)))) :
    Decidable (claimedShapeCondition lv ts pos m f e) := by
  unfold claimedShapeCondition; infer_instance

/-- Lines of a POSCAR file as written by `WritePOSCAR` (Common.py lines
119-164), one constructor per `output_writer.write` group; numeric
formatting widths are presentation-only and elided. -/
inductive PoscarLine where
  | title (s : String)
  | scale (factor : ℚ)
  | lattice (ax ay az : ℚ)
  | symbols (syms : List String)
  | counts (cs : List Nat)
  | direct
  | position (x y z : ℚ)
deriving DecidableEq

/-- An output file: the path handed to `open` and the written lines. -/
structure PoscarFile where
  path : String
  lines : List PoscarLine
deriving DecidableEq

/-- The run-length grouping loop of Common.py lines 101-117, carrying
`type_temp` and `count_temp`. -/
def atcLoop (type_temp : String) (count_temp : Nat) :
    List String → List (String × Nat)
  | [] => [(type_temp, count_temp)]
  | atom_type :: rest =>
    if atom_type = type_temp then atcLoop type_temp (count_temp + 1) rest
    else (type_temp, count_temp) :: atcLoop atom_type 1 rest

/-- POSCAR atom types and counts (`atom_types_counts`): run-length encoding
of the symbol list, seeded with `atom_types[0]` (the list is nonempty, by
the `_CheckStructure` assertion). -/
def atomTypesCounts : List String → List (String × Nat)
  | [] => []
  | t :: rest => atcLoop t 1 rest

/-- Index of the last occurrence of a character in a list of characters. -/
def lastIdxOf (c : Char) : List Char → Option Nat
  | [] => none
  | x :: xs =>
    match lastIdxOf c xs with
    | some i => some (i + 1)
    | none => if x = c then some 0 else none

/-- The tail component of `os.path.split(file_path)`: everything after the
last path separator. -/
def pathTail (file_path : String) : String :=
  (file_path.splitOn "/").getLastD file_path

/-- The root of `os.path.splitext(tail)`: drop the suffix starting at the
last dot, unless every character before that dot is itself a dot (CPython's
`genericpath._splitext`, which treats leading dots as part of the name). -/
def splitextRoot (tail : String) : String :=
  let cs := tail.toList
  match lastIdxOf '.' cs with
  | none => tail
  | some dotIndex =>
    if (cs.take dotIndex).any (fun ch => decide (ch ≠ '.')) then
      String.mk (cs.take dotIndex)
    else tail

/-- Common.py lines 76-164, `WritePOSCAR`.  Line 97 unconditionally
reassigns `structure_name = root`, so the `structure_name` argument is dead;
line 121 opens the literal path `"POSCAR.vasp"`, not `file_path`. -/
def WritePOSCAR (lattice_vectors : List (List ℚ)) (atom_types : List String)
    (atom_pos : List (List ℚ)) (file_path : String)
    (structure_name : Option String) : BuildOutcome PoscarFile :=
  match checkStructure lattice_vectors atom_types atom_pos none with
  | .fatal ws e => .fatal ws e
  | .ok ws _ =>
    let root := splitextRoot (pathTail file_path)
    let structure_name := root
    let atom_types_counts := atomTypesCounts atom_types
    .ok ws
      { path := "POSCAR.vasp"
        lines :=
          [PoscarLine.title structure_name, PoscarLine.scale 1]
          ++ lattice_vectors.map (fun row =>
              PoscarLine.lattice (row.getD 0 0) (row.getD 1 0) (row.getD 2 0))
          ++ [PoscarLine.symbols (atom_types_counts.map Prod.fst),
              PoscarLine.counts (atom_types_counts.map Prod.snd),
              PoscarLine.direct]
          ++ atom_pos.map (fun row =>
              PoscarLine.position (row.getD 0 0) (row.getD 1 0) (row.getD 2 0)) }

/-- CASTEP.py lines 101-159.  The per-wavevector section parser (lines
104-155) re-binds the block variables (`q`, `w`, `freqs`, `ir_ints`,
`eigenvectors`) on every iteration of `for i in range(0, params['num_qpts'])`;
`block i` abstracts the parsed content of the `i`-th wavevector section.  The
single `q_point_data.append(...)` at line 157 is indented at the level of the
`with` block, outside the wavevector loop, so it runs once, after the loop,
with the variables still bound to the last section's data.  The reformat
loop (lines 175-181) rewrites each collected entry in place (`reformat`
abstracts the list → numpy-array conversion), preserving the entry count. -/
def readPhononQPointData {β : Type} (num_qpts : Nat) (block : Nat → β)
    (reformat : β → β) : List β :=
  let lastBlock := (List.range num_qpts).foldl (fun _ i => some (block i)) (none : Option β)
  let q_point_data := match lastBlock with
    | some b => [b]
    | none => []
  q_point_data.map reformat

section ReconcileLemmas

/-- If the scan starting at offset `i0` returns `some r`, then `r` points at
the earliest matching element at or after the offset. -/
lemma findFirstMatchAux_some_spec (cp : Q3) (l : List Q3) :
    ∀ (i0 r : Nat), findFirstMatchAux cp l i0 = some r →
      i0 ≤ r ∧ r - i0 < l.length ∧ qMatch cp (l.getD (r - i0) default) ∧
      ∀ j < r - i0, ¬ qMatch cp (l.getD j default) := by
  induction l with
  | nil => intro i0 r h; simp [findFirstMatchAux] at h
  | cons q rest ih =>
    intro i0 r h
    simp only [findFirstMatchAux] at h
    by_cases hq : qMatch cp q
    · rw [if_pos hq] at h
      injection h with h
      subst h
      refine ⟨Nat.le_refl _, by simp, ?_, ?_⟩
      · simpa [Nat.sub_self] using hq
      · intro j hj; omega
    · rw [if_neg hq] at h
      obtain ⟨h1, h2, h3, h4⟩ := ih (i0 + 1) r h
      refine ⟨by omega, by simp only [List.length_cons]; omega, ?_, ?_⟩
      · have hr : r - i0 = (r - (i0 + 1)) + 1 := by omega
        rw [hr, List.getD_cons_succ]
        exact h3
      · intro j hj
        cases j with
        | zero => simpa using hq
        | succ j' =>
          rw [List.getD_cons_succ]
          exact h4 j' (by omega)

/-- If the scan returns `none`, no element matches. -/
lemma findFirstMatchAux_none_spec (cp : Q3) (l : List Q3) :
    ∀ (i0 : Nat), findFirstMatchAux cp l i0 = none →
      ∀ j < l.length, ¬ qMatch cp (l.getD j default) := by
  induction l with
  | nil => intro i0 _ j hj; simp at hj
  | cons q rest ih =>
    intro i0 h j hj
    simp only [findFirstMatchAux] at h
    by_cases hq : qMatch cp q
    · rw [if_pos hq] at h; cases h
    · rw [if_neg hq] at h
      cases j with
      | zero => simpa using hq
      | succ j' =>
        rw [List.getD_cons_succ]
        exact ih (i0 + 1) h j' (by simpa using hj)

/-- Conversely, if no element matches, the scan returns `none`. -/
lemma findFirstMatchAux_eq_none (cp : Q3) (l : List Q3)
    (h : ∀ j < l.length, ¬ qMatch cp (l.getD j default)) :
    ∀ (i0 : Nat), findFirstMatchAux cp l i0 = none := by
  induction l with
  | nil => intro i0; simp [findFirstMatchAux]
  | cons q rest ih =>
    intro i0
    simp only [findFirstMatchAux]
    have hq : ¬ qMatch cp q := by simpa using h 0 (by simp)
    rw [if_neg hq]
    refine ih (fun j hj => ?_) (i0 + 1)
    have := h (j + 1) (by simpa using hj)
    simpa using this

/-- The first-match index is the least matching dataset index. -/
lemma findFirstMatch_some_spec (cp : Q3) (q_pts : List Q3) (r : Nat)
    (h : findFirstMatch cp q_pts = some r) :
    r < q_pts.length ∧ qMatch cp (q_pts.getD r default) ∧
      ∀ j < r, ¬ qMatch cp (q_pts.getD j default) := by
  have := findFirstMatchAux_some_spec cp q_pts 0 r h
  simpa using this

/-- Success of the reconciliation loop, relative to an arbitrary
accumulator: the result extends the accumulator by one first-match index per
commensurate point, in order. -/
lemma mapLoop_ok_spec (q_pts : List Q3) :
    ∀ (cps : List Q3) (acc m : List Nat), mapLoop q_pts cps acc = .ok m →
      m.length = acc.length + cps.length ∧
      (∀ i < acc.length, m.getD i 0 = acc.getD i 0) ∧
      (∀ i < cps.length,
        findFirstMatch (cps.getD i default) q_pts = some (m.getD (acc.length + i) 0)) := by
  intro cps
  induction cps with
  | nil =>
    intro acc m h
    simp only [mapLoop] at h
    injection h with h
    subst h
    exact ⟨by simp, fun i _ => rfl, fun i hi => by simp at hi⟩
  | cons cp rest ih =>
    intro acc m h
    simp only [mapLoop] at h
    cases hf : findFirstMatch cp q_pts with
    | none => simp only [hf] at h; injection h
    | some idx =>
      simp only [hf] at h
      by_cases hmem : idx ∈ acc
      · rw [if_pos hmem] at h; injection h
      · rw [if_neg hmem] at h
        obtain ⟨h1, h2, h3⟩ := ih (acc ++ [idx]) m h
        have hlen : (acc ++ [idx]).length = acc.length + 1 := by simp
        refine ⟨by simp only [List.length_cons]; omega, ?_, ?_⟩
        · intro i hi
          have := h2 i (by omega)
          rwa [List.getD_append _ _ _ _ (by omega)] at this
        · intro i hi
          cases i with
          | zero =>
            have hval : m.getD acc.length 0 = idx := by
              have h2x := h2 acc.length (by omega)
              have hgr : (acc ++ [idx]).getD acc.length 0 = idx := by
                rw [List.getD_append_right _ _ _ _ (Nat.le_refl _)]
                simp
              rw [h2x, hgr]
            simp only [Nat.add_zero, hval, List.getD_cons_zero]
            exact hf
          | succ i' =>
            have := h3 i' (by simpa using hi)
            rw [hlen] at this
            have harith : acc.length + 1 + i' = acc.length + (i' + 1) := by omega
            rw [harith] at this
            simpa using this

/-- The reconciliation loop preserves freedom from duplicates. -/
lemma mapLoop_ok_nodup (q_pts : List Q3) :
    ∀ (cps : List Q3) (acc m : List Nat), acc.Nodup →
      mapLoop q_pts cps acc = .ok m → m.Nodup := by
  intro cps
  induction cps with
  | nil =>
    intro acc m hacc h
    simp only [mapLoop] at h
    injection h with h
    subst h
    exact hacc
  | cons cp rest ih =>
    intro acc m hacc h
    simp only [mapLoop] at h
    cases hf : findFirstMatch cp q_pts with
    | none => simp only [hf] at h; injection h
    | some idx =>
      simp only [hf] at h
      by_cases hmem : idx ∈ acc
      · rw [if_pos hmem] at h; injection h
      · rw [if_neg hmem] at h
        refine ih (acc ++ [idx]) m ?_ h
        refine (List.nodup_append).mpr ⟨hacc, List.nodup_singleton idx, ?_⟩
        intro a ha hb
        simp only [List.mem_singleton] at hb
        subst hb
        exact hmem ha

/-- The reconciliation loop splits across list concatenation. -/
lemma mapLoop_append (q_pts : List Q3) :
    ∀ (l₁ l₂ : List Q3) (acc : List Nat),
      mapLoop q_pts (l₁ ++ l₂) acc =
        match mapLoop q_pts l₁ acc with
        | .error e => .error e
        | .ok m => mapLoop q_pts l₂ m := by
  intro l₁
  induction l₁ with
  | nil => intro l₂ acc; simp [mapLoop]
  | cons cp rest ih =>
    intro l₂ acc
    simp only [List.cons_append, mapLoop]
    cases hf : findFirstMatch cp q_pts with
    | none => rfl
    | some idx =>
      by_cases hmem : idx ∈ acc
      · simp only [if_pos hmem]
      · simp only [if_neg hmem]
        exact ih l₂ (acc ++ [idx])

/-- Reconciliation failures are missing or duplicate matches, never shape
or unit errors. -/
lemma mapLoop_error_cases (q_pts : List Q3) :
    ∀ (cps : List Q3) (acc : List Nat) (e : BuildError),
      mapLoop q_pts cps acc = .error e →
      (∃ cp, e = .unmatchedQPoint cp) ∨ e = .duplicateMatch := by
  intro cps
  induction cps with
  | nil => intro acc e h; simp [mapLoop] at h
  | cons cp rest ih =>
    intro acc e h
    simp only [mapLoop] at h
    cases hf : findFirstMatch cp q_pts with
    | none => simp only [hf] at h; injection h with h; exact .inl ⟨cp, h.symm⟩
    | some idx =>
      simp only [hf] at h
      by_cases hmem : idx ∈ acc
      · rw [if_pos hmem] at h; injection h with h; exact .inr h.symm
      · rw [if_neg hmem] at h; exact ih (acc ++ [idx]) e h

end ReconcileLemmas

section PipelineLemmas

/-- A passing structure check returns exactly the unit warnings. -/
lemma checkStructure_ok_of (lv : List (List ℚ)) (ts : List String)
    (pos : List (List ℚ)) (mass : Option (List ℚ)) (h : structureOK lv ts pos mass) :
    checkStructure lv ts pos mass = .ok (unitWs pos) () := by
  obtain ⟨h1, h2, h3, h4, h5, h6⟩ := h
  simp only [npShape2] at h1 h2 h4 h5
  simp only [checkStructure, npShape2]
  rw [if_neg (not_not_intro ⟨h1, h2⟩), if_neg (not_not_intro h3),
    if_neg (not_not_intro ⟨h4, h5⟩)]
  cases mass with
  | none => rfl
  | some masses =>
    simp only [massOK] at h6
    simp only [if_pos h6]
    rfl

/-- When every shape assertion passes, `BuildForceConstants` proceeds to the
unit-selection/reconciliation/reshape phase with the unit warnings in hand. -/
lemma buildFC_eq_afterChecks {α : Type} (a b : ℚ) (cps : List Q3)
    (lv : List (List ℚ)) (ts : List String) (pos : List (List ℚ))
    (q_pts : List (List ℚ)) (freqs : List (List ℚ))
    (eigs : List (List (List (List α)))) (sc : List ℤ) (u : String)
    (mass : Option (List ℚ)) (d : α)
    (hs : structureOK lv ts pos mass)
    (ha : arraysOK ts q_pts freqs eigs sc) :
    BuildForceConstants a b cps lv ts pos q_pts freqs eigs sc u mass d =
      buildAfterChecks a b u cps q_pts freqs eigs sc d (unitWs pos)
        ts.length (npShape2 q_pts).1 (3 * ts.length) := by
  obtain ⟨a1, a2, a3, a4, a5, a6, a7, a8, a9⟩ := ha
  simp only [npShape2, npShape4] at a1 a2 a3 a4 a5 a6 a7 a8
  simp only [BuildForceConstants, npShape2, npShape4]
  rw [checkStructure_ok_of lv ts pos mass hs]
  simp only
  rw [if_neg (not_not_intro ⟨a1, a2⟩), if_neg (not_not_intro ⟨a3, a4⟩),
    if_neg (not_not_intro ⟨a5, a6, a7, a8⟩), if_neg (not_not_intro a9)]

/-- A failing shape assertion in the main function is a `shapeError`. -/
lemma buildAfterChecks_no_shapeError {α : Type} (a b : ℚ) (u : String)
    (cps : List Q3) (q_pts : List (List ℚ)) (freqs : List (List ℚ))
    (eigs : List (List (List (List α)))) (sc : List ℤ) (d : α)
    (ws : List PWarning) (n_at n_q n_b : Nat) :
    ∀ ws', buildAfterChecks a b u cps q_pts freqs eigs sc d ws n_at n_q n_b ≠
      .fatal ws' .shapeError := by
  intro ws' hcontra
  simp only [buildAfterChecks] at hcontra
  cases hfac : freqConvFactor a b u with
  | none => simp only [hfac] at hcontra; injection hcontra with _ h2; cases h2
  | some factor =>
    simp only [hfac] at hcontra
    cases hm : mapLoop (q_pts.map toQ3) cps [] with
    | error e =>
      simp only [hm] at hcontra
      injection hcontra with _ h2
      rcases mapLoop_error_cases _ _ _ _ hm with ⟨cp, rfl⟩ | rfl <;> cases h2
    | ok m => simp only [hm] at hcontra; injection hcontra

/-- Outcome of the post-check phase when reconciliation fails. -/
lemma buildAfterChecks_error {α : Type} (a b factor : ℚ) (u : String)
    (cps : List Q3) (q_pts : List (List ℚ)) (freqs : List (List ℚ))
    (eigs : List (List (List (List α)))) (sc : List ℤ) (d : α)
    (ws : List PWarning) (n_at n_q n_b : Nat) (e : BuildError)
    (hfac : freqConvFactor a b u = some factor)
    (hm : mapLoop (q_pts.map toQ3) cps [] = .error e) :
    buildAfterChecks a b u cps q_pts freqs eigs sc d ws n_at n_q n_b =
      .fatal (ws ++ (if scWarnCond (sc.getD 0 0) (sc.getD 1 0)
                     then [PWarning.gammaUntested] else [])
                ++ (if cps.length ≠ n_q then [PWarning.qptsCount] else [])) e := by
  simp only [buildAfterChecks, hfac, scTriple, hm]

/-- Outcome of the post-check phase when reconciliation succeeds. -/
lemma buildAfterChecks_ok {α : Type} (a b factor : ℚ) (u : String)
    (cps : List Q3) (q_pts : List (List ℚ)) (freqs : List (List ℚ))
    (eigs : List (List (List (List α)))) (sc : List ℤ) (d : α)
    (ws : List PWarning) (n_at n_q n_b : Nat) (m : List Nat)
    (hfac : freqConvFactor a b u = some factor)
    (hm : mapLoop (q_pts.map toQ3) cps [] = .ok m) :
    buildAfterChecks a b u cps q_pts freqs eigs sc d ws n_at n_q n_b =
      .ok (ws ++ (if scWarnCond (sc.getD 0 0) (sc.getD 1 0)
                  then [PWarning.gammaUntested] else [])
             ++ (if cps.length ≠ n_q then [PWarning.qptsCount] else []))
        ⟨freqSets factor m freqs, eigSets n_at n_b d m eigs⟩ := by
  simp only [buildAfterChecks, hfac, scTriple, hm]

end PipelineLemmas

section ClaimC2

/-- C2 (amended): if some commensurate point has no dataset q-point within
the tolerance on all three components, and the commensurate points before
the first such unmatched point all reconcile (each has a first match and no
dataset index repeats among them), then `BuildForceConstants` — called with
well-shaped inputs and a supported unit — fails with the fatal unmatched
q-point error carrying the numeric coordinates of the unmatched commensurate
point, the Transform Engine's dynamical-matrix/force-constant routine is
never invoked and no output file is written (the outcome is not `ok`). -/
theorem unmatched_qpoint_fatal {α : Type} (a b factor : ℚ) (cps₁ cps₂ : List Q3)
    (cp : Q3) (lv : List (List ℚ)) (ts : List String) (pos : List (List ℚ))
    (q_pts : List (List ℚ)) (freqs : List (List ℚ))
    (eigs : List (List (List (List α)))) (sc : List ℤ) (u : String)
    (mass : Option (List ℚ)) (d : α) (m : List Nat)
    (hs : structureOK lv ts pos mass)
    (ha : arraysOK ts q_pts freqs eigs sc)
    (hfac : freqConvFactor a b u = some factor)
    (hpre : mapLoop (q_pts.map toQ3) cps₁ [] = .ok m)
    (hnone : ∀ j < (q_pts.map toQ3).length,
      ¬ qMatch cp ((q_pts.map toQ3).getD j default)) :
    (∃ ws, BuildForceConstants a b (cps₁ ++ cp :: cps₂) lv ts pos q_pts freqs
        eigs sc u mass d = .fatal ws (.unmatchedQPoint cp)) ∧
    (∀ ws out, BuildForceConstants a b (cps₁ ++ cp :: cps₂) lv ts pos q_pts
        freqs eigs sc u mass d ≠ .ok ws out) := by
  have hnone' : findFirstMatch cp (q_pts.map toQ3) = none :=
    findFirstMatchAux_eq_none cp (q_pts.map toQ3) hnone 0
  have hrun : mapLoop (q_pts.map toQ3) (cps₁ ++ cp :: cps₂) [] =
      .error (.unmatchedQPoint cp) := by
    rw [mapLoop_append (q_pts.map toQ3) cps₁ (cp :: cps₂) [], hpre]
    simp only [mapLoop, hnone']
  have key : BuildForceConstants a b (cps₁ ++ cp :: cps₂) lv ts pos q_pts freqs
      eigs sc u mass d =
      .fatal (unitWs pos
          ++ (if scWarnCond (sc.getD 0 0) (sc.getD 1 0)
              then [PWarning.gammaUntested] else [])
          ++ (if (cps₁ ++ cp :: cps₂).length ≠ (npShape2 q_pts).1
              then [PWarning.qptsCount] else []))
        (.unmatchedQPoint cp) := by
    rw [buildFC_eq_afterChecks a b (cps₁ ++ cp :: cps₂) lv ts pos q_pts freqs
      eigs sc u mass d hs ha]
    exact buildAfterChecks_error a b factor u _ q_pts freqs eigs sc d _ _ _ _ _
      hfac hrun
  refine ⟨⟨_, key⟩, fun ws out hcontra => ?_⟩
  rw [key] at hcontra
  injection hcontra

/-- C2 counterexample to the claim as stated: the third commensurate point
`(1/2, 0, 0)` has no dataset q-point within the tolerance (the only dataset
point is `(0, 0, 0)`), yet `BuildForceConstants` fails with the
duplicate-match error, not the unmatched-q-point error, because the second
commensurate point re-selects dataset index 0 before the unmatched point is
reached. -/
theorem unmatched_qpoint_fatal_counterexample :
    BuildForceConstants (α := ℚ) 1 1
      [((0:ℚ),(0:ℚ),(0:ℚ)), ((0:ℚ),(0:ℚ),(0:ℚ)), ((1/2:ℚ),(0:ℚ),(0:ℚ))]
      [[1,0,0],[0,1,0],[0,0,1]] ["H"] [[0,0,0]] [[0,0,0]] [[1,2,3]]
      [[[[0,0,0]],[[0,0,0]],[[0,0,0]]]] [1,1,1] "thz" none 0
      = .fatal [PWarning.qptsCount] .duplicateMatch ∧
    ¬ qMatch ((1/2:ℚ),(0:ℚ),(0:ℚ)) ((0:ℚ),(0:ℚ),(0:ℚ)) := by
  constructor
  · with_unfolding_all rfl
  · with_unfolding_all decide

/-- Witness for the amended C2 at a concrete input: the dataset holds only
`(0, 0, 0)`, the first commensurate point matches it, and the second
commensurate point `(1/2, 0, 0)` is unmatched, so the call fails with the
unmatched-q-point error carrying `(1/2, 0, 0)` and never reaches the engine. -/
theorem unmatched_qpoint_fatal_witness :
    (∃ ws, BuildForceConstants (α := ℚ) 1 1
        ([((0:ℚ),(0:ℚ),(0:ℚ))] ++ ((1/2:ℚ),(0:ℚ),(0:ℚ)) :: [])
        [[1,0,0],[0,1,0],[0,0,1]] ["H"] [[0,0,0]] [[0,0,0]] [[1,2,3]]
        [[[[0,0,0]],[[0,0,0]],[[0,0,0]]]] [1,1,1] "thz" none 0
        = .fatal ws (.unmatchedQPoint ((1/2:ℚ),(0:ℚ),(0:ℚ)))) ∧
    (∀ ws out, BuildForceConstants (α := ℚ) 1 1
        ([((0:ℚ),(0:ℚ),(0:ℚ))] ++ ((1/2:ℚ),(0:ℚ),(0:ℚ)) :: [])
        [[1,0,0],[0,1,0],[0,0,1]] ["H"] [[0,0,0]] [[0,0,0]] [[1,2,3]]
        [[[[0,0,0]],[[0,0,0]],[[0,0,0]]]] [1,1,1] "thz" none 0
        ≠ .ok ws out) :=
  unmatched_qpoint_fatal 1 1 1 [((0:ℚ),(0:ℚ),(0:ℚ))] []
    ((1/2:ℚ),(0:ℚ),(0:ℚ)) [[1,0,0],[0,1,0],[0,0,1]] ["H"] [[0,0,0]]
    [[0,0,0]] [[1,2,3]] [[[[0,0,0]],[[0,0,0]],[[0,0,0]]]] [1,1,1] "thz" none 0 [0]
    (by with_unfolding_all decide) (by with_unfolding_all decide)
    (by with_unfolding_all rfl) (by with_unfolding_all rfl)
    (by with_unfolding_all decide)

end ClaimC2

section ClaimC4

/-- The guard of the supercell warning is unsatisfiable: its middle conjunct
is `dim_2 ≠ dim_2`. -/
lemma scWarnCond_never (d1 d2 : ℤ) : ¬ scWarnCond d1 d2 := by
  simp [scWarnCond]

/-- C4 (refuting theorem): the "untested beyond the Gamma point" warning is
unreachable — its guard, the Python chained comparison
`dim_1 != dim_2 != dim_2 != 1`, contains the always-false conjunct
`dim_2 != dim_2` — and in particular a request of `sc_dim = (2, 2, 1)`
completes successfully with no warnings at all, instead of emitting the
warning the claim requires. -/
theorem gamma_warning_unreachable :
    (∀ d1 d2 : ℤ, decide (scWarnCond d1 d2) = false) ∧
    BuildForceConstants (α := ℚ) 1 1 [((0:ℚ),(0:ℚ),(0:ℚ))]
      [[1,0,0],[0,1,0],[0,0,1]] ["H"] [[0,0,0]] [[0,0,0]] [[1,2,3]]
      [[[[0,0,0]],[[0,0,0]],[[0,0,0]]]] [2,2,1] "thz" none 0
      = .ok [] ⟨freqSets 1 [0] [[1,2,3]],
                eigSets 1 3 0 [0] [[[[0,0,0]],[[0,0,0]],[[0,0,0]]]]⟩ := by
  constructor
  · intro d1 d2
    exact decide_eq_false (scWarnCond_never d1 d2)
  · with_unfolding_all rfl

end ClaimC4

section PayloadLemmas

/-- List lookup through `map`, below the length. -/
lemma getD_map_lt {α β : Type} (f : α → β) (l : List α) (i : Nat) (d : β)
    (d' : α) (h : i < l.length) : (l.map f).getD i d = f (l.getD i d') := by
  have hm : i < (l.map f).length := by simpa using h
  have h1 : (l.map f).getD i d = (l.map f).get ⟨i, hm⟩ := List.getD_eq_getElem _ _ hm
  have h2 : l.getD i d' = l.get ⟨i, h⟩ := List.getD_eq_getElem _ _ h
  rw [h1, h2]
  simp

/-- Inversion of a successful `BuildForceConstants` call: the payload handed
to the engine is the reshaped data for the reconciliation mapping, and does
not depend on the atom positions, masses or warnings. -/
lemma buildFC_ok_inv {α : Type} (a b : ℚ) (cps : List Q3)
    (lv : List (List ℚ)) (ts : List String) (pos : List (List ℚ))
    (q_pts : List (List ℚ)) (freqs : List (List ℚ))
    (eigs : List (List (List (List α)))) (sc : List ℤ) (u : String)
    (mass : Option (List ℚ)) (d : α) (ws : List PWarning) (out : EngineInput α)
    (h : BuildForceConstants a b cps lv ts pos q_pts freqs eigs sc u mass d =
      .ok ws out) :
    ∃ factor m, freqConvFactor a b u = some factor ∧
      mapLoop (q_pts.map toQ3) cps [] = .ok m ∧
      out = ⟨freqSets factor m freqs, eigSets ts.length (3 * ts.length) d m eigs⟩ := by
  simp only [BuildForceConstants, npShape2, npShape4] at h
  cases hcs : checkStructure lv ts pos mass with
  | fatal ws0 e => rw [hcs] at h; injection h
  | ok ws0 v =>
    rw [hcs] at h
    simp only at h
    split at h
    · injection h
    · split at h
      · injection h
      · split at h
        · injection h
        · split at h
          · injection h
          · simp only [buildAfterChecks, scTriple] at h
            cases hfac : freqConvFactor a b u with
            | none => rw [hfac] at h; simp only at h; injection h
            | some factor =>
              rw [hfac] at h
              simp only at h
              cases hm : mapLoop (q_pts.map toQ3) cps [] with
              | error e => rw [hm] at h; simp only at h; injection h
              | ok m =>
                rw [hm] at h
                simp only at h
                injection h with h1 h2
                exact ⟨factor, m, rfl, rfl, h2.symm⟩

end PayloadLemmas

section ClaimC8

/-- C8: a position component of absolute value above 1 makes the structure
check emit exactly the unit warning while still succeeding (so the pipeline
proceeds), positions all within absolute value 1 emit no warning, and the
warning does not alter the output: the engine payload of any two successful
calls differing only in the atom positions (hence in whether the warning
fired) is identical. -/
theorem unit_warning_nonfatal :
    (∀ (lv : List (List ℚ)) (ts : List String) (pos : List (List ℚ))
        (mass : Option (List ℚ)), structureOK lv ts pos mass → bigPos pos = true →
        checkStructure lv ts pos mass = .ok [PWarning.unitWarning] ()) ∧
    (∀ (lv : List (List ℚ)) (ts : List String) (pos : List (List ℚ))
        (mass : Option (List ℚ)), structureOK lv ts pos mass → bigPos pos = false →
        checkStructure lv ts pos mass = .ok [] ()) ∧
    (∀ (α : Type) (a b : ℚ) (cps : List Q3) (lv : List (List ℚ))
        (ts : List String) (pos pos' : List (List ℚ)) (q_pts : List (List ℚ))
        (freqs : List (List ℚ)) (eigs : List (List (List (List α))))
        (sc : List ℤ) (u : String) (mass mass' : Option (List ℚ)) (d : α)
        (ws ws' : List PWarning) (out out' : EngineInput α),
        BuildForceConstants a b cps lv ts pos q_pts freqs eigs sc u mass d =
          .ok ws out →
        BuildForceConstants a b cps lv ts pos' q_pts freqs eigs sc u mass' d =
          .ok ws' out' →
        out = out') := by
  refine ⟨?_, ?_, ?_⟩
  · intro lv ts pos mass hs hbig
    rw [checkStructure_ok_of lv ts pos mass hs]
    simp [unitWs, hbig]
  · intro lv ts pos mass hs hbig
    rw [checkStructure_ok_of lv ts pos mass hs]
    simp [unitWs, hbig]
  · intro α a b cps lv ts pos pos' q_pts freqs eigs sc u mass mass' d ws ws' out out' h h'
    obtain ⟨f1, m1, hf1, hm1, ho1⟩ := buildFC_ok_inv a b cps lv ts pos q_pts freqs eigs sc u mass d ws out h
    obtain ⟨f2, m2, hf2, hm2, ho2⟩ := buildFC_ok_inv a b cps lv ts pos' q_pts freqs eigs sc u mass' d ws' out' h'
    rw [hf1] at hf2
    injection hf2 with hf
    rw [hm1] at hm2
    injection hm2 with hm
    rw [ho1, ho2, hf, hm]

/-- Witness for C8 at a concrete input: the position component `3/2` is
flagged by the unit warning while the structure check still succeeds. -/
theorem unit_warning_nonfatal_witness :
    checkStructure [[1,0,0],[0,1,0],[0,0,1]] ["H"] [[(3/2 : ℚ),0,0]] none =
      .ok [PWarning.unitWarning] () :=
  unit_warning_nonfatal.1 [[1,0,0],[0,1,0],[0,0,1]] ["H"] [[(3/2 : ℚ),0,0]] none
    (by with_unfolding_all decide) (by with_unfolding_all rfl)

end ClaimC8

section ClaimC7

/-- Elementwise division through `map`, with matching defaults. -/
lemma getD_map_div (a : ℚ) (row : List ℚ) (j : Nat) :
    (row.map (fun f => f / a)).getD j 0 = row.getD j 0 / a := by
  by_cases hj : j < row.length
  · exact getD_map_lt _ _ _ _ 0 hj
  · rw [List.getD_eq_default, List.getD_eq_default]
    · exact (zero_div a).symm
    · omega
    · simpa using hj

/-- C7: for every unit string outside the closed enumeration
`{"thz", "inv_cm"}`, a well-shaped `BuildForceConstants` call fails with the
fatal unsupported-unit error (carrying the offending string) before the
engine phase; and for each supported value, every frequency handed to the
engine is the corresponding input frequency divided by the conversion
constant that value selects (`vaspToTHz` for `"thz"`, `vaspToCm` for
`"inv_cm"`). -/
theorem unit_closed_enumeration :
    (∀ (α : Type) (a b : ℚ) (cps : List Q3) (lv : List (List ℚ))
        (ts : List String) (pos : List (List ℚ)) (q_pts : List (List ℚ))
        (freqs : List (List ℚ)) (eigs : List (List (List (List α))))
        (sc : List ℤ) (u : String) (mass : Option (List ℚ)) (d : α),
      u ≠ "thz" → u ≠ "inv_cm" →
      structureOK lv ts pos mass → arraysOK ts q_pts freqs eigs sc →
      BuildForceConstants a b cps lv ts pos q_pts freqs eigs sc u mass d =
        .fatal (unitWs pos) (.unsupportedUnit u)) ∧
    (∀ (α : Type) (a b : ℚ) (cps : List Q3) (lv : List (List ℚ))
        (ts : List String) (pos : List (List ℚ)) (q_pts : List (List ℚ))
        (freqs : List (List ℚ)) (eigs : List (List (List (List α))))
        (sc : List ℤ) (mass : Option (List ℚ)) (d : α) (ws : List PWarning)
        (out : EngineInput α) (m : List Nat),
      BuildForceConstants a b cps lv ts pos q_pts freqs eigs sc "thz" mass d =
        .ok ws out →
      mapLoop (q_pts.map toQ3) cps [] = .ok m →
      ∀ i < m.length, ∀ j,
        (out.freq_sets.getD i []).getD j 0 =
          (freqs.getD (m.getD i 0) []).getD j 0 / a) ∧
    (∀ (α : Type) (a b : ℚ) (cps : List Q3) (lv : List (List ℚ))
        (ts : List String) (pos : List (List ℚ)) (q_pts : List (List ℚ))
        (freqs : List (List ℚ)) (eigs : List (List (List (List α))))
        (sc : List ℤ) (mass : Option (List ℚ)) (d : α) (ws : List PWarning)
        (out : EngineInput α) (m : List Nat),
      BuildForceConstants a b cps lv ts pos q_pts freqs eigs sc "inv_cm" mass d =
        .ok ws out →
      mapLoop (q_pts.map toQ3) cps [] = .ok m →
      ∀ i < m.length, ∀ j,
        (out.freq_sets.getD i []).getD j 0 =
          (freqs.getD (m.getD i 0) []).getD j 0 / b) := by
  have hfreq : ∀ (α : Type) (a b factor : ℚ) (cps : List Q3) (lv : List (List ℚ))
      (ts : List String) (pos : List (List ℚ)) (q_pts : List (List ℚ))
      (freqs : List (List ℚ)) (eigs : List (List (List (List α))))
      (sc : List ℤ) (u : String) (mass : Option (List ℚ)) (d : α)
      (ws : List PWarning) (out : EngineInput α) (m : List Nat),
      BuildForceConstants a b cps lv ts pos q_pts freqs eigs sc u mass d =
        .ok ws out →
      freqConvFactor a b u = some factor →
      mapLoop (q_pts.map toQ3) cps [] = .ok m →
      ∀ i < m.length, ∀ j,
        (out.freq_sets.getD i []).getD j 0 =
          (freqs.getD (m.getD i 0) []).getD j 0 / factor := by
    intro α a b factor cps lv ts pos q_pts freqs eigs sc u mass d ws out m h hfac hm i hi j
    obtain ⟨f1, m1, hf1, hm1, ho1⟩ :=
      buildFC_ok_inv a b cps lv ts pos q_pts freqs eigs sc u mass d ws out h
    rw [hfac] at hf1
    injection hf1 with hf
    rw [hm] at hm1
    injection hm1 with hmeq
    subst hf hmeq
    rw [ho1]
    simp only [freqSets]
    rw [getD_map_lt _ m i [] 0 hi]
    exact getD_map_div factor _ j
  refine ⟨?_, ?_, ?_⟩
  · intro α a b cps lv ts pos q_pts freqs eigs sc u mass d h1 h2 hs ha
    rw [buildFC_eq_afterChecks a b cps lv ts pos q_pts freqs eigs sc u mass d hs ha]
    have hfac : freqConvFactor a b u = none := by
      simp [freqConvFactor, h1, h2]
    simp only [buildAfterChecks, hfac]
  · intro α a b cps lv ts pos q_pts freqs eigs sc mass d ws out m h hm
    refine hfreq α a b a cps lv ts pos q_pts freqs eigs sc "thz" mass d ws out m h ?_ hm
    simp [freqConvFactor]
  · intro α a b cps lv ts pos q_pts freqs eigs sc mass d ws out m h hm
    refine hfreq α a b b cps lv ts pos q_pts freqs eigs sc "inv_cm" mass d ws out m h ?_ hm
    simp [freqConvFactor]

/-- Witness for C7 at a concrete input: the unit string `"mev"` is rejected
with the fatal unsupported-unit error before the engine phase. -/
theorem unit_closed_enumeration_witness :
    BuildForceConstants (α := ℚ) 1 1 [((0:ℚ),(0:ℚ),(0:ℚ))]
      [[1,0,0],[0,1,0],[0,0,1]] ["H"] [[0,0,0]] [[0,0,0]] [[1,2,3]]
      [[[[0,0,0]],[[0,0,0]],[[0,0,0]]]] [1,1,1] "mev" none 0
      = .fatal (unitWs [[0,0,0]]) (.unsupportedUnit "mev") :=
  unit_closed_enumeration.1 ℚ 1 1 [((0:ℚ),(0:ℚ),(0:ℚ))]
    [[1,0,0],[0,1,0],[0,0,1]] ["H"] [[0,0,0]] [[0,0,0]] [[1,2,3]]
    [[[[0,0,0]],[[0,0,0]],[[0,0,0]]]] [1,1,1] "mev" none 0
    (by decide) (by decide)
    (by with_unfolding_all decide) (by with_unfolding_all decide)

end ClaimC7

section ClaimC6

/-- A successful structure check means every structure-shape assertion held. -/
lemma checkStructure_ok_inv (lv : List (List ℚ)) (ts : List String)
    (pos : List (List ℚ)) (mass : Option (List ℚ)) (ws : List PWarning) (v : Unit)
    (h : checkStructure lv ts pos mass = .ok ws v) : structureOK lv ts pos mass := by
  simp only [checkStructure, npShape2] at h
  split at h
  next hc1 => injection h
  next hc1 =>
    split at h
    next hc2 => injection h
    next hc2 =>
      split at h
      next hc3 => injection h
      next hc3 =>
        split at h
        next masses =>
          split at h
          next hc4 =>
            exact ⟨(not_not.mp hc1).1, (not_not.mp hc1).2, not_not.mp hc2,
              (not_not.mp hc3).1, (not_not.mp hc3).2, by simpa [massOK] using hc4⟩
          next hc4 => injection h
        next =>
          exact ⟨(not_not.mp hc1).1, (not_not.mp hc1).2, not_not.mp hc2,
            (not_not.mp hc3).1, (not_not.mp hc3).2, by simp [massOK]⟩

/-- Every fatal outcome of the structure check is a shape error. -/
lemma checkStructure_fatal_shape (lv : List (List ℚ)) (ts : List String)
    (pos : List (List ℚ)) (mass : Option (List ℚ)) (ws : List PWarning)
    (e : BuildError) (h : checkStructure lv ts pos mass = .fatal ws e) :
    e = .shapeError := by
  simp only [checkStructure, npShape2] at h
  split at h
  next => injection h with _ h2; exact h2.symm
  next =>
    split at h
    next => injection h with _ h2; exact h2.symm
    next =>
      split at h
      next => injection h with _ h2; exact h2.symm
      next =>
        split at h
        next masses =>
          split at h
          next => injection h
          next => injection h with _ h2; exact h2.symm
        next => injection h

/-- C6 (amended): `BuildForceConstants` fails with a fatal shape error —
raised before any Transform Engine call — precisely when one of the shape
assertions fails: lattice not exactly 3×3, empty symbol list, position shape
different from N×3, supplied mass list of the wrong length, q-point array
empty or without exactly 3 columns, frequency array shape different from
(number of q-points) × 3N, eigenvector array shape different from (number
of q-points) × 3N × N × 3, or supercell dimension vector not of length 3.
Every condition enumerated by the original claim implies such a failure, but
the enumeration is not exhaustive. -/
theorem shape_error_characterization {α : Type} (a b : ℚ) (cps : List Q3)
    (lv : List (List ℚ)) (ts : List String) (pos : List (List ℚ))
    (q_pts : List (List ℚ)) (freqs : List (List ℚ))
    (eigs : List (List (List (List α)))) (sc : List ℤ) (u : String)
    (mass : Option (List ℚ)) (d : α) :
    ((∃ ws, BuildForceConstants a b cps lv ts pos q_pts freqs eigs sc u mass d =
        .fatal ws .shapeError) ↔
      ¬(structureOK lv ts pos mass ∧ arraysOK ts q_pts freqs eigs sc)) ∧
    (claimedShapeCondition lv ts pos mass freqs eigs →
      ∃ ws, BuildForceConstants a b cps lv ts pos q_pts freqs eigs sc u mass d =
        .fatal ws .shapeError) := by
  have hiff : (∃ ws, BuildForceConstants a b cps lv ts pos q_pts freqs eigs sc u
      mass d = .fatal ws .shapeError) ↔
      ¬(structureOK lv ts pos mass ∧ arraysOK ts q_pts freqs eigs sc) := by
    constructor
    · rintro ⟨ws, h⟩ ⟨hs, ha⟩
      rw [buildFC_eq_afterChecks a b cps lv ts pos q_pts freqs eigs sc u mass d hs ha] at h
      exact buildAfterChecks_no_shapeError a b u cps q_pts freqs eigs sc d
        (unitWs pos) ts.length (npShape2 q_pts).1 (3 * ts.length) ws h
    · intro h
      by_cases hs : structureOK lv ts pos mass
      · have ha : ¬ arraysOK ts q_pts freqs eigs sc := fun ha => h ⟨hs, ha⟩
        refine ⟨unitWs pos, ?_⟩
        simp only [BuildForceConstants, npShape2, npShape4]
        rw [checkStructure_ok_of lv ts pos mass hs]
        simp only
        by_cases cA : q_pts.length > 0 ∧ (q_pts.headD []).length = 3
        · rw [if_neg (not_not_intro cA)]
          by_cases cB : freqs.length = q_pts.length ∧
              (freqs.headD []).length = 3 * ts.length
          · rw [if_neg (not_not_intro cB)]
            by_cases cC : eigs.length = q_pts.length ∧
                (eigs.headD []).length = 3 * ts.length ∧
                ((eigs.headD []).headD []).length = ts.length ∧
                (((eigs.headD []).headD []).headD []).length = 3
            · rw [if_neg (not_not_intro cC)]
              by_cases cD : sc.length = 3
              · exact absurd
                  (show arraysOK ts q_pts freqs eigs sc from
                    ⟨cA.1, cA.2, cB.1, cB.2, cC.1, cC.2.1, cC.2.2.1, cC.2.2.2, cD⟩) ha
              · rw [if_pos cD]
            · rw [if_pos cC]
          · rw [if_pos cB]
        · rw [if_pos cA]
      · cases hcs : checkStructure lv ts pos mass with
        | ok ws v => exact absurd (checkStructure_ok_inv lv ts pos mass ws v hcs) hs
        | fatal ws e =>
          have he := checkStructure_fatal_shape lv ts pos mass ws e hcs
          subst he
          exact ⟨ws, by simp only [BuildForceConstants, hcs]⟩
  refine ⟨hiff, fun hc => hiff.mpr ?_⟩
  rintro ⟨hs, ha⟩
  obtain ⟨s1, s2, s3, s4, s5, s6⟩ := hs
  obtain ⟨a1, a2, a3, a4, a5, a6, a7, a8, a9⟩ := ha
  rcases hc with h | h | h | h | h | h
  · exact h (Prod.ext_iff.mpr ⟨by rw [s1, s2], s2⟩)
  · omega
  · exact h (Prod.ext_iff.mpr ⟨s4, s5⟩)
  · exact h s6
  · exact h a4
  · exact h a6

/-- Witness for the amended C6 at a concrete input: a 2×2 lattice-vector
matrix is one of the enumerated conditions and produces the shape-error
abort. -/
theorem shape_error_characterization_witness :
    ∃ ws, BuildForceConstants (α := ℚ) 1 1 [((0:ℚ),(0:ℚ),(0:ℚ))]
      [[1,0],[0,1]] ["H"] [[0,0,0]] [[0,0,0]] [[1,2,3]]
      [[[[0,0,0]],[[0,0,0]],[[0,0,0]]]] [1,1,1] "thz" none 0
      = .fatal ws .shapeError :=
  (shape_error_characterization 1 1 [((0:ℚ),(0:ℚ),(0:ℚ))]
      [[1,0],[0,1]] ["H"] [[0,0,0]] [[0,0,0]] [[1,2,3]]
      [[[[0,0,0]],[[0,0,0]],[[0,0,0]]]] [1,1,1] "thz" none 0).2
    (by with_unfolding_all decide)

/-- C6 counterexample to the claim's "precisely when": a q-point array with
two columns triggers the shape-error abort even though none of the
conditions enumerated by the claim holds. -/
theorem shape_error_characterization_counterexample :
    BuildForceConstants (α := ℚ) 1 1 [((0:ℚ),(0:ℚ),(0:ℚ))]
      [[1,0,0],[0,1,0],[0,0,1]] ["H"] [[0,0,0]] [[0,0]] [[1,2,3]]
      [[[[0,0,0]],[[0,0,0]],[[0,0,0]]]] [1,1,1] "thz" none 0
      = .fatal [] .shapeError ∧
    ¬ claimedShapeCondition [[1,0,0],[0,1,0],[0,0,1]] ["H"] [[0,0,0]] none
      [[1,2,3]] [[[[0,0,0]],[[0,0,0]],[[0,0,0]]]] := by
  constructor
  · with_unfolding_all rfl
  · with_unfolding_all decide

end ClaimC6

section ClaimC5

/-- Length of a flatMap over `range` with constant inner length. -/
lemma length_flatMap_range {γ : Type} (g : Nat → List γ) (mlen : Nat)
    (hg : ∀ i, (g i).length = mlen) (n : Nat) :
    ((List.range n).flatMap g).length = mlen * n := by
  induction n with
  | zero => simp
  | succ n ih =>
    rw [List.range_succ, List.flatMap_append, List.length_append, ih,
      List.flatMap_singleton, hg n, Nat.mul_succ]

/-- Block indexing of a flatMap over `range` with constant inner length. -/
lemma flatMap_range_getElem? {γ : Type} (g : Nat → List γ) (mlen : Nat)
    (hg : ∀ i, (g i).length = mlen) :
    ∀ (n a c : Nat), a < n → c < mlen →
      ((List.range n).flatMap g)[mlen * a + c]? = (g a)[c]? := by
  intro n
  induction n with
  | zero => intro a c ha _; exact absurd ha (Nat.not_lt_zero a)
  | succ n ih =>
    intro a c ha hc
    rw [List.range_succ, List.flatMap_append, List.flatMap_singleton]
    by_cases hcase : a < n
    · rw [List.getElem?_append_left]
      · exact ih a c hcase hc
      · rw [length_flatMap_range g mlen hg n]
        calc mlen * a + c < mlen * a + mlen := by omega
          _ = mlen * (a + 1) := by rw [Nat.mul_succ]
          _ ≤ mlen * n := Nat.mul_le_mul_left mlen (by omega)
    · have haeq : a = n := by omega
      rw [haeq]
      rw [List.getElem?_append_right
        (by rw [length_flatMap_range g mlen hg n]; exact Nat.le_add_right _ _)]
      rw [length_flatMap_range g mlen hg n]
      have harith : mlen * n + c - mlen * n = c := by omega
      rw [harith]

/-- Row `3*a + c` of the reshaped eigenvector matrix lists
`eig[k][a][c]` over the bands `k`. -/
lemma eigRows_getD {α : Type} (n_at n_b : Nat) (d : α)
    (eig : List (List (List α))) (a c : Nat) (ha : a < n_at) (hc : c < 3) :
    (eigRows n_at n_b d eig).getD (3 * a + c) [] =
      (List.range n_b).map (fun k => ((eig.getD k []).getD a []).getD c d) := by
  have hg : ∀ i, ((List.range 3).map (fun j =>
      (List.range n_b).map (fun k => ((eig.getD k []).getD i []).getD j d))).length = 3 :=
    fun i => by simp
  have h := flatMap_range_getElem? _ 3 hg n_at a c ha hc
  rw [eigRows, List.getD_eq_getElem?_getD, h, List.getElem?_map,
    List.getElem?_range hc]
  rfl

/-- C5: reshaping a `[band][atom][Cartesian]` eigenvector tensor with `3N`
bands, `N` atoms and 3 components gives the `3N × 3N` matrix whose entry at
row `3*a + c`, column `b` is the input entry `[b][a][c]` (rows enumerate
atom 0 x,y,z, atom 1 x,y,z, …), and the inverse re-indexing applied to the
reshaped matrix recovers the original tensor exactly. -/
theorem eig_reshape_roundtrip {α : Type} (n_at : Nat) (d : α)
    (eig : List (List (List α)))
    (hb : eig.length = 3 * n_at)
    (hat : ∀ k < 3 * n_at, (eig.getD k []).length = n_at)
    (hc3 : ∀ k < 3 * n_at, ∀ i < n_at, ((eig.getD k []).getD i []).length = 3) :
    (∀ a < n_at, ∀ c < 3, ∀ b < 3 * n_at,
      ((eigRows n_at (3 * n_at) d eig).getD (3 * a + c) []).getD b d =
        ((eig.getD b []).getD a []).getD c d) ∧
    invReshape n_at (3 * n_at) d (eigRows n_at (3 * n_at) d eig) = eig := by
  have hentry : ∀ a < n_at, ∀ c < 3, ∀ b < 3 * n_at,
      ((eigRows n_at (3 * n_at) d eig).getD (3 * a + c) []).getD b d =
        ((eig.getD b []).getD a []).getD c d := by
    intro a ha c hc b hbb
    rw [eigRows_getD n_at (3 * n_at) d eig a c ha hc]
    rw [getD_map_lt _ (List.range (3 * n_at)) b d 0 (by simpa using hbb)]
    have hrange : (List.range (3 * n_at)).getD b 0 = b := by
      rw [List.getD_eq_getElem?_getD, List.getElem?_range hbb]
      rfl
    rw [hrange]
  refine ⟨hentry, ?_⟩
  apply List.ext_getElem
  · simp [invReshape, hb]
  · intro k hk1 hk2
    have hkb : k < 3 * n_at := by rw [← hb]; exact hk2
    simp only [invReshape, List.getElem_map, List.getElem_range]
    apply List.ext_getElem
    · simp only [List.length_map, List.length_range]
      have h := hat k hkb
      rw [List.getD_eq_getElem _ _ hk2] at h
      exact h.symm
    · intro i hi1 hi2
      have hii : i < n_at := by simpa using hi1
      simp only [List.getElem_map, List.getElem_range]
      apply List.ext_getElem
      · simp only [List.length_map, List.length_range]
        have h := hc3 k hkb i hii
        rw [List.getD_eq_getElem _ _ hk2] at h
        rw [List.getD_eq_getElem _ _ hi2] at h
        exact h.symm
      · intro j hj1 hj2
        have hjj : j < 3 := by simpa using hj1
        simp only [List.getElem_map, List.getElem_range]
        have h := hentry i hii j hjj k hkb
        rw [h]
        have hik : i < (eig[k]).length := hi2
        have hjk : j < (eig[k][i]).length := hj2
        rw [List.getD_eq_getElem _ _ hk2, List.getD_eq_getElem _ _ hik,
          List.getD_eq_getElem _ _ hjk]

/-- Witness for C5 at a concrete input: one atom, three bands. -/
theorem eig_reshape_roundtrip_witness :
    (∀ a < 1, ∀ c < 3, ∀ b < 3 * 1,
      ((eigRows 1 (3 * 1) (0:ℚ) [[[1,2,3]],[[4,5,6]],[[7,8,9]]]).getD (3 * a + c) []).getD b 0 =
        ((([[[1,2,3]],[[4,5,6]],[[7,8,9]]] : List (List (List ℚ))).getD b []).getD a []).getD c 0) ∧
    invReshape 1 (3 * 1) (0:ℚ) (eigRows 1 (3 * 1) (0:ℚ) [[[1,2,3]],[[4,5,6]],[[7,8,9]]]) =
      [[[1,2,3]],[[4,5,6]],[[7,8,9]]] :=
  eig_reshape_roundtrip 1 (0:ℚ) [[[1,2,3]],[[4,5,6]],[[7,8,9]]]
    (by decide) (by decide) (by decide)

end ClaimC5

section ClaimC9

/-- C9: for a well-formed CASTEP `.phonon` file declaring at least one
wavevector, the returned `q_point_data` list has exactly one entry — the
(reformatted) data of the last wavevector block read — because the single
`append` sits outside the loop over wavevectors. -/
theorem readPhonon_single_entry {β : Type} (num_qpts : Nat) (block : Nat → β)
    (reformat : β → β) (h : 1 ≤ num_qpts) :
    readPhononQPointData num_qpts block reformat =
      [reformat (block (num_qpts - 1))] := by
  obtain ⟨n, rfl⟩ : ∃ n, num_qpts = n + 1 := ⟨num_qpts - 1, by omega⟩
  simp only [readPhononQPointData]
  rw [List.range_succ, List.foldl_append]
  simp

/-- Witness for C9 at a concrete input: three declared wavevectors produce a
single entry holding block 2's data. -/
theorem readPhonon_single_entry_witness :
    readPhononQPointData 3 (fun i => i) (fun b => b + 10) = [12] :=
  readPhonon_single_entry 3 (fun i => i) (fun b => b + 10) (by decide)

end ClaimC9

section ClaimC10

/-- The tail of the written lines (everything after the title line), or
`none` when the structure check aborted the write. -/
def outcomeTail : BuildOutcome PoscarFile → Option (List PoscarLine)
  | .ok _ f => some f.lines.tail
  | .fatal _ _ => none

/-- C10: the file written by `WritePOSCAR` is independent of its
`structure_name` argument (line 97 unconditionally overwrites it): two calls
differing only in `structure_name` have identical outcomes; on success the
file is written to the fixed path `"POSCAR.vasp"` whatever `file_path` says,
the title line is the basename of `file_path` with its extension removed,
and `file_path` influences only the title line — the lines after it are
identical across any two `file_path` values. -/
theorem writePOSCAR_structure_name_dead (lv : List (List ℚ)) (ts : List String)
    (pos : List (List ℚ)) (fp fp' : String) (sn sn' : Option String) :
    (WritePOSCAR lv ts pos fp sn = WritePOSCAR lv ts pos fp sn') ∧
    (∀ ws f, WritePOSCAR lv ts pos fp sn = .ok ws f →
      f.path = "POSCAR.vasp" ∧
      f.lines.head? = some (.title (splitextRoot (pathTail fp)))) ∧
    (outcomeTail (WritePOSCAR lv ts pos fp sn) =
      outcomeTail (WritePOSCAR lv ts pos fp' sn')) := by
  refine ⟨rfl, ?_, ?_⟩
  · intro ws f h
    simp only [WritePOSCAR] at h
    cases hcs : checkStructure lv ts pos none with
    | fatal ws0 e => rw [hcs] at h; injection h
    | ok ws0 v =>
      rw [hcs] at h
      simp only at h
      injection h with h1 h2
      subst h2
      exact ⟨rfl, rfl⟩
  · simp only [WritePOSCAR]
    cases hcs : checkStructure lv ts pos none with
    | fatal ws0 e => rfl
    | ok ws0 v => rfl

/-- Witness for C10 at a concrete input: the title comes from the file path
(`dir/Structure.phonon` gives `Structure`), not from the supplied
`structure_name`, and the path written is the fixed `POSCAR.vasp`. -/
theorem writePOSCAR_structure_name_dead_witness :
    PoscarFile.path
      ⟨"POSCAR.vasp",
        [PoscarLine.title "Structure", PoscarLine.scale 1]
        ++ [PoscarLine.lattice 1 0 0, PoscarLine.lattice 0 1 0,
            PoscarLine.lattice 0 0 1]
        ++ [PoscarLine.symbols ["H"], PoscarLine.counts [1], PoscarLine.direct]
        ++ [PoscarLine.position 0 0 0]⟩ = "POSCAR.vasp" ∧
    List.head?
      ([PoscarLine.title "Structure", PoscarLine.scale 1]
        ++ [PoscarLine.lattice 1 0 0, PoscarLine.lattice 0 1 0,
            PoscarLine.lattice 0 0 1]
        ++ [PoscarLine.symbols ["H"], PoscarLine.counts [1], PoscarLine.direct]
        ++ [PoscarLine.position 0 0 0]) =
      some (.title (splitextRoot (pathTail "dir/Structure.phonon"))) :=
  (writePOSCAR_structure_name_dead [[1,0,0],[0,1,0],[0,0,1]] ["H"] [[0,0,0]]
      "dir/Structure.phonon" "other" (some "X") none).2.1 []
    ⟨"POSCAR.vasp",
      [PoscarLine.title "Structure", PoscarLine.scale 1]
      ++ [PoscarLine.lattice 1 0 0, PoscarLine.lattice 0 1 0,
          PoscarLine.lattice 0 0 1]
      ++ [PoscarLine.symbols ["H"], PoscarLine.counts [1], PoscarLine.direct]
      ++ [PoscarLine.position 0 0 0]⟩
    (by with_unfolding_all rfl)

end ClaimC10

section ClaimC1

/-- C1: for every list of commensurate points, dataset q-point list and the
fixed tolerance `symPrec = 1e-5`, the reconciliation step of
`BuildForceConstants` (the `mapLoop` over commensurate points in their given
enumeration order) maps the `i`-th commensurate point to the smallest
dataset index whose q-point differs from it by strictly less than the
tolerance in each of the three fractional components; the mapping is a
(deterministic) function of the inputs, and a tie between two equally close
dataset points goes to the earlier dataset index, since any smaller index
fails the componentwise tolerance test. -/
theorem reconcile_first_match (q_pts cps : List Q3) (m : List Nat)
    (h : mapLoop q_pts cps [] = .ok m) :
    m.length = cps.length ∧
    ∀ i < cps.length,
      m.getD i 0 < q_pts.length ∧
      qMatch (cps.getD i default) (q_pts.getD (m.getD i 0) default) ∧
      ∀ j < m.getD i 0, ¬ qMatch (cps.getD i default) (q_pts.getD j default) := by
  obtain ⟨h1, h2, h3⟩ := mapLoop_ok_spec q_pts cps [] m h
  refine ⟨by simpa using h1, fun i hi => ?_⟩
  have hm := h3 i hi
  simp only [List.length_nil, Nat.zero_add] at hm
  exact findFirstMatch_some_spec _ _ _ hm

/-- Witness for C1 at a concrete input: two dataset points both match the
single commensurate point within tolerance, and the earlier index 0 wins. -/
theorem reconcile_first_match_witness :
    ([0] : List Nat).length = [((0:ℚ),(0:ℚ),(0:ℚ))].length ∧
    ∀ i < [((0:ℚ),(0:ℚ),(0:ℚ))].length,
      ([0] : List Nat).getD i 0 < [((0:ℚ),(0:ℚ),(0:ℚ)), ((0:ℚ),(0:ℚ),(0:ℚ))].length ∧
      qMatch ([((0:ℚ),(0:ℚ),(0:ℚ))].getD i default)
        ([((0:ℚ),(0:ℚ),(0:ℚ)), ((0:ℚ),(0:ℚ),(0:ℚ))].getD (([0] : List Nat).getD i 0) default) ∧
      ∀ j < ([0] : List Nat).getD i 0,
        ¬ qMatch ([((0:ℚ),(0:ℚ),(0:ℚ))].getD i default)
          ([((0:ℚ),(0:ℚ),(0:ℚ)), ((0:ℚ),(0:ℚ),(0:ℚ))].getD j default) :=
  reconcile_first_match [((0:ℚ),(0:ℚ),(0:ℚ)), ((0:ℚ),(0:ℚ),(0:ℚ))]
    [((0:ℚ),(0:ℚ),(0:ℚ))] [0] (by with_unfolding_all rfl)

end ClaimC1

section ClaimC3

/-- C3: the index mapping built by reconciliation is injective — on success
`map_indices` has no duplicate, so no dataset index is assigned to two
commensurate points — and when the first-match scan selects an
already-matched dataset index for a later commensurate point, the call fails
with the fatal duplicate-match assertion instead of silently reusing or
dropping the match. -/
theorem reconcile_injective_duplicate_fatal (q_pts : List Q3) :
    (∀ cps m, mapLoop q_pts cps [] = .ok m → m.Nodup) ∧
    (∀ (cps₁ cps₂ : List Q3) (cp : Q3) (m : List Nat) (idx : Nat),
      mapLoop q_pts cps₁ [] = .ok m →
      findFirstMatch cp q_pts = some idx → idx ∈ m →
      mapLoop q_pts (cps₁ ++ cp :: cps₂) [] = .error .duplicateMatch) := by
  constructor
  · intro cps m h
    exact mapLoop_ok_nodup q_pts cps [] m List.nodup_nil h
  · intro cps₁ cps₂ cp m idx h1 hf hmem
    rw [mapLoop_append q_pts cps₁ (cp :: cps₂) [], h1]
    simp only [mapLoop, hf, if_pos hmem]

/-- Witness for C3 at a concrete input: the single dataset point is matched
by the first commensurate point, so matching it again for the second
commensurate point aborts with the duplicate-match failure. -/
theorem reconcile_injective_duplicate_fatal_witness :
    mapLoop [((0:ℚ),(0:ℚ),(0:ℚ))]
      ([((0:ℚ),(0:ℚ),(0:ℚ))] ++ ((0:ℚ),(0:ℚ),(0:ℚ)) :: []) [] =
      .error .duplicateMatch :=
  (reconcile_injective_duplicate_fatal [((0:ℚ),(0:ℚ),(0:ℚ))]).2
    [((0:ℚ),(0:ℚ),(0:ℚ))] [] ((0:ℚ),(0:ℚ),(0:ℚ)) [0] 0
    (by with_unfolding_all rfl) (by with_unfolding_all rfl) (by decide)

end ClaimC3

end PhonopyImporter
